import Mathlib

/-!
Verification of the local_rag ReAct agent loop
(src/experiments/local_rag: agents/base_agent.py, agents/react_agent.py,
agents/verifier_agent.py, utils/memory.py).

The Python code is shallowly embedded: decoded JSON values become the
inductive type `JsonValue`, text is manipulated as `List Char` with the
exact character-level semantics of the Python string operations used by
the source, network calls become explicit outcome parameters, and Python
exceptions become `Except` values.
-/

set_option maxHeartbeats 1000000
set_option maxRecDepth 10000

namespace LocalRag

/-- A JSON value as produced by Python's `json.loads`.  A number is
kept exact as `mantissa · 10 ^ exp10`, the form the decimal literal
denotes (integer literals have `exp10 = 0`); equality on numbers is
syntactic in that form, which coincides with Python's numeric equality
for numbers written the same way — the only comparisons any claim
makes.  Objects are insertion-ordered key/value lists built with Python
`dict` semantics (duplicate keys overwrite in place), so the key lists
are duplicate-free by construction. -/
inductive JsonValue : Type where
  | null : JsonValue
  | bool (b : Bool) : JsonValue
  | num (mantissa : Int) (exp10 : Int) : JsonValue
  | str (s : String) : JsonValue
  | arr (elems : List JsonValue) : JsonValue
  | obj (fields : List (String × JsonValue)) : JsonValue

/-- Python `v == "lit"` for a decoded value and a string literal: in
Python a string compares equal only to an equal string, and to no value
of any other type. -/
def jsonEqStr (v : JsonValue) (s : String) : Bool :=
  match v with
  | .str t => t == s
  | _ => false

/-- Python `k in d` on a dict represented as a key/value list. -/
def containsKey (kvs : List (String × JsonValue)) (k : String) : Bool :=
  kvs.any (fun kv => kv.1 = k)

/-- Python `d[k] = v`: overwrite in place if the key is present
(keeping its position), otherwise append. -/
def dictInsert (kvs : List (String × JsonValue)) (k : String) (v : JsonValue) :
    List (String × JsonValue) :=
  match kvs with
  | [] => [(k, v)]
  | (k', v') :: rest =>
    if k' = k then (k, v) :: rest else (k', v') :: dictInsert rest k v

/-- First binding of a key, if any (for dicts built with `dictInsert`
keys are unique, so this is Python `d[k]` / `d.get(k)`). -/
def dictFind (kvs : List (String × JsonValue)) (k : String) : Option JsonValue :=
  (kvs.find? (fun kv => kv.1 = k)).map (fun kv => kv.2)

/-- Python `step.get(k, dflt)` on a decoded JSON object.  The parser
always hands the loop a dict, so the non-object case is unreachable
there; it returns the default. -/
def jsonGetD (v : JsonValue) (k : String) (dflt : JsonValue) : JsonValue :=
  match v with
  | .obj kvs => (dictFind kvs k).getD dflt
  | _ => dflt

/-- Python truthiness of a decoded JSON value (a number is falsy
exactly when it denotes zero, i.e. its mantissa is zero). -/
def pyTruthy : JsonValue → Bool
  | .null => false
  | .bool b => b
  | .num m _ => m != 0
  | .str s => s ≠ ""
  | .arr xs => !xs.isEmpty
  | .obj kvs => !kvs.isEmpty

/-- Python `a or b` restricted to decoded JSON values. -/
def pyOrJ (a b : JsonValue) : JsonValue := if pyTruthy a then a else b

/-- Rendering of a decoded number as Python's `str`.  An integer
literal (`exp10 = 0`) renders exactly as Python `str(int)`; a number
the source wrote with a fraction or exponent is a Python float, whose
shortest-round-trip repr is approximated here in `<mantissa>e<exp>`
form — no claim exercises rendering a non-integer number. -/
def jsonNumStr (m e : Int) : String :=
  if e = 0 then toString m else toString m ++ "e" ++ toString e

mutual

/-- Python `repr` of a decoded JSON value (used for elements of lists
and dicts inside `str`).  String quoting is simplified to plain single
quotes; no claim exercises a string needing escaping inside a repr. -/
def pyRepr : JsonValue → String
  | .null => "None"
  | .bool true => "True"
  | .bool false => "False"
  | .num m e => jsonNumStr m e
  | .str s => "'" ++ s ++ "'"
  | .arr xs => "[" ++ pyReprList xs ++ "]"
  | .obj kvs => "\x7b" ++ pyReprFields kvs ++ "\x7d"

/-- Comma-separated reprs of list elements, as inside Python `str(list)`. -/
def pyReprList : List JsonValue → String
  | [] => ""
  | [v] => pyRepr v
  | v :: rest => pyRepr v ++ ", " ++ pyReprList rest

/-- Comma-separated reprs of dict items, as inside Python `str(dict)`. -/
def pyReprFields : List (String × JsonValue) → String
  | [] => ""
  | [(k, v)] => "'" ++ k ++ "': " ++ pyRepr v
  | (k, v) :: rest => "'" ++ k ++ "': " ++ pyRepr v ++ ", " ++ pyReprFields rest

end

/-- Python `str` of a decoded JSON value. -/
def pyStr (v : JsonValue) : String :=
  match v with
  | .str s => s
  | v => pyRepr v

/-- Whitespace stripped by Python `str.strip()` (ASCII subset; the
source never feeds exotic Unicode whitespace into the strip calls). -/
def isPyWs (c : Char) : Bool :=
  c == ' ' || c == '\t' || c == '\n' || c == '\r' || c == '\x0b' || c == '\x0c'

/-- Python `s.strip()` at the character-list level. -/
def stripChars (cs : List Char) : List Char :=
  ((cs.dropWhile isPyWs).reverse.dropWhile isPyWs).reverse

/-- Worker for `removeAllSubstr`, structurally recursive on a fuel
bound: every step consumes at least one character, so with initial fuel
equal to the input length the `0, cs` equation is unreachable. -/
def removeAllSubstrF (pat : List Char) : Nat → List Char → List Char
  | _, [] => []
  | 0, cs => cs
  | fuel + 1, c :: rest =>
    if pat.isPrefixOf (c :: rest) && !pat.isEmpty then
      removeAllSubstrF pat fuel (rest.drop (pat.length - 1))
    else
      c :: removeAllSubstrF pat fuel rest

/-- Python `s.replace(pat, "")` for a non-empty pattern: left-to-right,
non-overlapping removal of every occurrence. -/
def removeAllSubstr (pat cs : List Char) : List Char :=
  removeAllSubstrF pat cs.length cs

/-- Boolean substring test (Python `pat in s`). -/
def hasSubstr (pat : List Char) : List Char → Bool
  | [] => pat.isEmpty
  | c :: rest => pat.isPrefixOf (c :: rest) || hasSubstr pat rest

/-- Worker for `findBlocks`, structurally recursive on a fuel bound:
every step consumes at least one character, so with initial fuel equal
to the input length the `0, _` equation is unreachable. -/
def findBlocksF : Nat → List Char → List (List Char)
  | _, [] => []
  | 0, _ => []
  | fuel + 1, c :: rest =>
    if c = '{' then
      match rest.findIdx? (fun x => x = '}') with
      | some i => ('{' :: (rest.take i ++ ['}'])) :: findBlocksF fuel (rest.drop (i + 1))
      | none => findBlocksF fuel rest
    else findBlocksF fuel rest

/-- `re.findall(r'\x7b[\s\S]*?\x7d', content)` (base_agent.py line 64):
non-overlapping lazy matches — from each unconsumed `\x7b` the shortest
span up to the first following `\x7d`; a `\x7b` with no later `\x7d`
matches nothing and scanning moves on. -/
def findBlocks (cs : List Char) : List (List Char) :=
  findBlocksF cs.length cs

/-! ## `json.loads`

A strict RFC-8259 decoder matching Python `json.loads`: leading and
trailing JSON whitespace is allowed, anything else after the value is an
error (modelled as `none`); strings are double-quoted with the standard
escapes; numbers follow the JSON grammar and are decoded exactly into
mantissa/exponent form; objects apply `dict` semantics to duplicate
keys.  Unicode
surrogate-pair combination in `\uXXXX` escapes is not modelled (no claim
exercises a non-BMP escape). -/

/-- The whitespace `json.loads` skips between tokens. -/
def jsonWs (c : Char) : Bool :=
  c == ' ' || c == '\t' || c == '\n' || c == '\r'

/-- Skip JSON whitespace. -/
def skipWs (cs : List Char) : List Char := cs.dropWhile jsonWs

/-- Value of a hex digit. -/
def hexVal (c : Char) : Option Nat :=
  if '0' ≤ c ∧ c ≤ '9' then some (c.toNat - '0'.toNat)
  else if 'a' ≤ c ∧ c ≤ 'f' then some (c.toNat - 'a'.toNat + 10)
  else if 'A' ≤ c ∧ c ≤ 'F' then some (c.toNat - 'A'.toNat + 10)
  else none

/-- The single-character string escapes of JSON. -/
def escChar (c : Char) : Option Char :=
  if c = '"' then some '"'
  else if c = '\\' then some '\\'
  else if c = '/' then some '/'
  else if c = 'b' then some '\x08'
  else if c = 'f' then some '\x0c'
  else if c = 'n' then some '\n'
  else if c = 'r' then some '\r'
  else if c = 't' then some '\t'
  else none

/-- Parse the body of a JSON string (the opening quote already
consumed); returns the decoded characters and the remainder after the
closing quote.  Raw control characters are rejected (strict mode). -/
def parseStringBody : List Char → Option (List Char × List Char)
  | [] => none
  | c :: rest =>
    if c = '"' then some ([], rest)
    else if c = '\\' then
      match rest with
      | [] => none
      | e :: rest2 =>
        if e = 'u' then
          match rest2 with
          | a :: b :: c2 :: d :: rest3 =>
            match hexVal a, hexVal b, hexVal c2, hexVal d with
            | some ha, some hb, some hc, some hd =>
              (parseStringBody rest3).map
                (fun p => (Char.ofNat (((ha * 16 + hb) * 16 + hc) * 16 + hd) :: p.1, p.2))
            | _, _, _, _ => none
          | _ => none
        else
          match escChar e with
          | some ec => (parseStringBody rest2).map (fun p => (ec :: p.1, p.2))
          | none => none
    else if c.toNat < 0x20 then none
    else (parseStringBody rest).map (fun p => (c :: p.1, p.2))

/-- Value of a decimal digit. -/
def digitVal (c : Char) : Option Nat :=
  if '0' ≤ c ∧ c ≤ '9' then some (c.toNat - '0'.toNat) else none

/-- Longest leading run of decimal digits. -/
def takeDigits : List Char → (List Nat × List Char)
  | [] => ([], [])
  | c :: rest =>
    match digitVal c with
    | some d => let p := takeDigits rest; (d :: p.1, p.2)
    | none => ([], c :: rest)

/-- Digits to the natural number they denote. -/
def digitsToNat (ds : List Nat) : Nat := ds.foldl (fun a d => a * 10 + d) 0

/-- Parse a JSON number token at the head of the input, exactly per the
JSON grammar (`-? (0 | [1-9][0-9]*) (\.[0-9]+)? ([eE][+-]?[0-9]+)?`),
decoded exactly into the value `mantissa · 10 ^ exp10` it denotes
(fraction digits are folded into the mantissa, lowering the
exponent). -/
def parseNumber (cs : List Char) : Option ((Int × Int) × List Char) := do
  let sgn := match cs with | '-' :: _ => true | _ => false
  let cs1 := match cs with | '-' :: r => r | _ => cs
  let (ip, r2) ← (match cs1 with
    | '0' :: r => some ((0 : Nat), r)
    | c :: r =>
      match digitVal c with
      | some d =>
        if d = 0 then none
        else
          let p := takeDigits r
          some (digitsToNat (d :: p.1), p.2)
      | none => none
    | [] => none : Option (Nat × List Char))
  let (fnum, fcnt, r3) ← (match r2 with
    | '.' :: r =>
      let p := takeDigits r
      if p.1.isEmpty then none else some (digitsToNat p.1, p.1.length, p.2)
    | _ => some (0, 0, r2) : Option (Nat × Nat × List Char))
  let (eneg, ev, r4) ← (match r3 with
    | c :: r =>
      if c = 'e' ∨ c = 'E' then
        let esgn := match r with | '-' :: _ => true | _ => false
        let r' := match r with | '+' :: rr => rr | '-' :: rr => rr | _ => r
        let p := takeDigits r'
        if p.1.isEmpty then none else some (esgn, digitsToNat p.1, p.2)
      else some (false, 0, r3)
    | [] => some (false, 0, r3) : Option (Bool × Nat × List Char))
  let mant : Int := Int.ofNat (ip * 10 ^ fcnt + fnum)
  let mant : Int := if sgn then -mant else mant
  let exp10 : Int := (if eneg then -(Int.ofNat ev) else Int.ofNat ev) - Int.ofNat fcnt
  some ((mant, exp10), r4)

mutual

/-- Parse one JSON value at the head of the input (whitespace already
skipped by the caller); fuel bounds the recursion depth. -/
def parseValueF : Nat → List Char → Option (JsonValue × List Char)
  | 0, _ => none
  | fuel + 1, cs =>
    match cs with
    | [] => none
    | c :: rest =>
      if c = 'n' then (if "null".data.isPrefixOf cs then some (.null, cs.drop 4) else none)
      else if c = 't' then (if "true".data.isPrefixOf cs then some (.bool true, cs.drop 4) else none)
      else if c = 'f' then (if "false".data.isPrefixOf cs then some (.bool false, cs.drop 5) else none)
      else if c = '"' then (parseStringBody rest).map (fun p => (.str (String.mk p.1), p.2))
      else if c = '[' then
        match skipWs rest with
        | ']' :: r => some (.arr [], r)
        | cs1 => (parseElemsF fuel cs1).map (fun p => (.arr p.1, p.2))
      else if c = '{' then
        match skipWs rest with
        | '}' :: r => some (.obj [], r)
        | cs1 => (parseMembersF fuel [] cs1).map (fun p => (.obj p.1, p.2))
      else (parseNumber cs).map (fun p => (.num p.1.1 p.1.2, p.2))

/-- Parse the elements of a non-empty JSON array (whitespace before the
first element already skipped). -/
def parseElemsF : Nat → List Char → Option (List JsonValue × List Char)
  | 0, _ => none
  | fuel + 1, cs => do
    let (v, r) ← parseValueF fuel cs
    match skipWs r with
    | ',' :: r2 =>
      let (vs, r3) ← parseElemsF fuel (skipWs r2)
      some (v :: vs, r3)
    | ']' :: r2 => some ([v], r2)
    | _ => none

/-- Parse the members of a non-empty JSON object starting at the first
key (whitespace skipped), folding them into a dict with Python
`dict` duplicate-key semantics. -/
def parseMembersF : Nat → List (String × JsonValue) → List Char →
    Option (List (String × JsonValue) × List Char)
  | 0, _, _ => none
  | fuel + 1, acc, cs =>
    match cs with
    | '"' :: r => do
      let (kcs, r1) ← parseStringBody r
      match skipWs r1 with
      | ':' :: r3 => do
        let (v, r4) ← parseValueF fuel (skipWs r3)
        let acc' := dictInsert acc (String.mk kcs) v
        match skipWs r4 with
        | ',' :: r6 => parseMembersF fuel acc' (skipWs r6)
        | '}' :: r6 => some (acc', r6)
        | _ => none
      | _ => none
    | _ => none

end

/-- Python `json.loads`: decode the whole input as one JSON value,
allowing surrounding whitespace only; `none` models the
`json.JSONDecodeError` raise. -/
def jsonLoads (cs : List Char) : Option JsonValue := do
  let cs1 := skipWs cs
  let (v, r) ← parseValueF (cs1.length + 1) cs1
  if skipWs r = [] then some v else none

/-! ## `BaseReActAgent._call_llm` (base_agent.py lines 57-94)

Only the response-parsing portion is modelled: the HTTP transport and
its exception paths (lines 96-114) are outside every claim's successful
response, so `parseLLMOutput` takes the message content the code reads
at line 57 and returns the step dict `_call_llm` returns. -/

/-- Lines 57 and 61: `content = raw.strip()` followed by
`content.replace("</think>", "")`. -/
def cleanedContent (raw : String) : List Char :=
  removeAllSubstr "</think>".data (stripChars raw.data)

/-- Lines 73-75: blank a model-supplied `observation` field
(`parsed["observation"] = ""` when the key is present). -/
def removeHallucinatedObservation (v : JsonValue) : JsonValue :=
  match v with
  | .obj kvs =>
    if containsKey kvs "observation" then .obj (dictInsert kvs "observation" (.str ""))
    else .obj kvs
  | v => v

/-- Lines 64-79: every lazy brace-delimited candidate that `json.loads`
accepts, in text order, each with any hallucinated observation
blanked. -/
def parsedBlocks (content : List Char) : List JsonValue :=
  (findBlocks content).filterMap (fun b => (jsonLoads b).map removeHallucinatedObservation)

/-- Lines 88-94: the degenerate step built when no candidate decodes. -/
def fallbackStep (content : List Char) : JsonValue :=
  .obj [("thought", .str ""),
        ("action", .str "none"),
        ("action_input", .str ""),
        ("observation", .str ""),
        ("final_answer", .str (if content.isEmpty then "No output from model" else String.mk content))]

/-- Lines 57-94 of `_call_llm`: clean the content, decode every lazy
brace-delimited candidate, return the last success (observation
blanked), else the degenerate fallback step. -/
def parseLLMOutput (raw : String) : JsonValue :=
  let content := cleanedContent raw
  match (parsedBlocks content).getLast? with
  | some v => v
  | none => fallbackStep content

/-! ## Tools and dispatch (base_agent.py lines 22-24, 157-190;
react_agent.py lines 64-95)

A tool is its registry name plus its `execute` capability; a Python
exception raised by `execute` is an `Except.error` carrying `str(e)`. -/

structure Tool where
  name : String
  execute : String → Except String String

/-- `self.tools = \x7btool.name: tool for tool in tools\x7d` followed by
`self.tools.get(name)`: with duplicate names the later tool wins. -/
def toolRegistryGet (tools : List Tool) (name : String) : Option Tool :=
  tools.reverse.find? (fun t => t.name = name)

/-- `self.tools.get(action)` where `action` is a decoded JSON value:
only a string key can name a registered tool; other hashable keys miss.
(For an unhashable key — a decoded array or object — CPython would
raise `TypeError`; modelled as a miss, a corner no claim reaches since
a tool-naming action is a string.) -/
def toolsGetJ (tools : List Tool) (action : JsonValue) : Option Tool :=
  match action with
  | .str s => toolRegistryGet tools s
  | _ => none

/-- Input normalization, base_agent.py lines 163-174 (react_agent.py
lines 70-82 are identical): join a list with single spaces, render a
dict as `"key: value"` pairs joined by spaces, take `str(...)` of
anything else; strip; fall back to the original query when empty. -/
def renderActionInput (actionInput : JsonValue) : String :=
  match actionInput with
  | .arr xs => String.intercalate " " (xs.map pyStr)
  | .obj kvs => String.intercalate " " (kvs.map (fun kv => kv.1 ++ ": " ++ pyStr kv.2))
  | v => pyStr v

def normalizeActionInput (actionInput : JsonValue) (query : String) : String :=
  let t := String.mk (stripChars (renderActionInput actionInput).data)
  if t = "" then query else t

/-- Tool dispatch with failure containment, base_agent.py lines 160-184
(react_agent.py lines 67-93): a raised exception becomes the
`"Tool error: ..."` observation, an unregistered name becomes the
`"Unknown tool: ..."` observation; nothing propagates. -/
def dispatchTool (tools : List Tool) (action : JsonValue) (actionInput : JsonValue)
    (query : String) : String :=
  match toolsGetJ tools action with
  | some tool =>
    match tool.execute (normalizeActionInput actionInput query) with
    | .ok obs => obs
    | .error e => "Tool error: " ++ e
  | none => "Unknown tool: " ++ pyStr action

/-- Python `d[k] = v` on a decoded JSON object
(`result["observation"] = observation`, base_agent.py line 187). -/
def setField (v : JsonValue) (k : String) (x : JsonValue) : JsonValue :=
  match v with
  | .obj kvs => .obj (dictInsert kvs k x)
  | v => v

/-! ## `BaseReActAgent.run` (base_agent.py lines 123-213)

The reasoning model is the function `llm` from the current prompt to the
step dict `_call_llm` returns (instantiated with
`fun p => parseLLMOutput (respond p)` for a raw-text model `respond`).
The initial prompt built by the prompt manager is an opaque parameter.
Logging is omitted.  The loop counts down `fuel` (iterations left); the
1-based iteration number of the current pass is `maxIter - fuel` once
`fuel + 1` iterations remain. -/

structure RunResult where
  answer : JsonValue
  steps : List JsonValue
  iterations : Nat
  success : Bool

/-- What one pass of the `for` body of `BaseReActAgent.run` produces
from the current prompt: the stored step (with the actual observation
written back when a tool ran, line 187), the extracted answer, the
prompt for the next pass, and the stop decision of line 196. -/
structure BaseStepOut where
  stored : JsonValue
  answer : JsonValue
  nextPrompt : String
  shouldStop : Bool

/-- One pass of the loop body, base_agent.py lines 143-196. -/
def baseStep (llm : String → JsonValue) (tools : List Tool) (query : String)
    (prompt : String) : BaseStepOut :=
  let result := llm prompt
  let action := jsonGetD result "action" (.str "none")
  let actionInput := jsonGetD result "action_input" (.str "")
  let answer := jsonGetD result "final_answer" (.str "")
  let doTool := pyTruthy action && !(jsonEqStr action "none")
  let observation := if doTool then dispatchTool tools action actionInput query else ""
  { stored := if doTool then setField result "observation" (.str observation) else result
    answer := answer
    nextPrompt :=
      if doTool then
        prompt ++ "\n\nObservation: " ++ observation ++
          "\nContinue reasoning and respond in JSON format."
      else prompt
    shouldStop := pyTruthy answer && jsonEqStr action "none" }

def baseRunLoop (llm : String → JsonValue) (tools : List Tool) (query : String)
    (maxIter : Nat) :
    Nat → String → List JsonValue → JsonValue → RunResult
  | 0, _prompt, steps, lastAnswer =>
    { answer := pyOrJ lastAnswer (.str "I couldn't find a complete answer."),
      steps := steps, iterations := maxIter, success := false }
  | fuel + 1, prompt, steps, _lastAnswer =>
    let s := baseStep llm tools query prompt
    if s.shouldStop then
      { answer := s.answer, steps := steps ++ [s.stored], iterations := maxIter - fuel,
        success := true }
    else
      baseRunLoop llm tools query maxIter fuel s.nextPrompt (steps ++ [s.stored]) s.answer

/-- `BaseReActAgent.run(query, max_iterations)`.  The initial
`lastAnswer` is a dummy: it is read only when `maxIter = 0`, a value the
source cannot produce (`max_iterations or config["max_iterations"]`
replaces falsy `0` by the default `3`). -/
def baseRun (llm : String → JsonValue) (tools : List Tool) (query : String)
    (initialPrompt : String) (maxIter : Nat) : RunResult :=
  baseRunLoop llm tools query maxIter maxIter initialPrompt [] (.str "")

/-! ## `VerifierAgent.verify` (verifier_agent.py lines 19-105)

The HTTP call on the built prompt is an explicit outcome: a timeout, a
raised transport/processing error carrying `str(e)`, or a response whose
message content is a string.  `query`, `agent_answer`, `observation` and
`context` shape only the outgoing prompt, so the returned verdict
depends only on the outcome.  `jsonErr` stands for the message of the
`json.JSONDecodeError` raised when the matched block fails to load (its
CPython text carries position details no claim constrains). -/

inductive HttpOutcome where
  | timeout
  | error (msg : String)
  | ok (content : String)

/-- The `uncertain` fallback verdicts of lines 82-87, 91-96, 100-105. -/
def uncertainVerdict (reason : String) : JsonValue :=
  .obj [("verdict", .str "uncertain"),
        ("reason", .str reason),
        ("suggestion", .str ""),
        ("confidence", .num 0 0)]

def verifierVerify (outcome : HttpOutcome) (jsonErr : String) : JsonValue :=
  match outcome with
  | .timeout => uncertainVerdict "Verifier request timed out"
  | .error e => uncertainVerdict ("Verifier error: " ++ e)
  | .ok raw =>
    let content := stripChars raw.data
    match (findBlocks content).head? with
    | some b =>
      match jsonLoads b with
      | some v => v
      | none => uncertainVerdict ("Verifier error: " ++ jsonErr)
    | none => uncertainVerdict "Could not parse verifier response"

/-! ## `AdvancedReactAgent.run` (react_agent.py lines 19-167)

Same conventions as `baseRun`; additionally the attached verifier is an
optional function from (query, candidate answer-or-thought, latest
observation) to the verdict dict `verify` returns (context is always
passed as `""` at line 105).  The memory plugin only records to the
session file and never influences the returned result, so it is not
modelled here; `MemoryLayer` itself is modelled separately below. -/

structure AdvResult where
  answer : JsonValue
  steps : List JsonValue
  iterations : Nat
  success : Bool
  verification : Option JsonValue

/-- What one pass of the `for` body of `AdvancedReactAgent.run`
produces: the parsed step exactly as appended to `steps` at line 52
(never touched afterwards), the extracted answer, this pass's
verification result, the prompt for the next pass, and the stop
decision of lines 133-137. -/
structure AdvStepOut where
  stored : JsonValue
  answer : JsonValue
  verification : Option JsonValue
  nextPrompt : String
  shouldStop : Bool

/-- One pass of the loop body, react_agent.py lines 51-137. -/
def advStep (llm : String → JsonValue) (tools : List Tool)
    (verifier : Option (String → JsonValue → String → JsonValue))
    (useVerifier : Bool) (query : String) (prompt : String) : AdvStepOut :=
  let result := llm prompt
  let thought := jsonGetD result "thought" (.str "")
  let action := jsonGetD result "action" (.str "none")
  let actionInput := jsonGetD result "action_input" (.str "")
  let answer := jsonGetD result "final_answer" (.str "")
  let doTool := pyTruthy action && !(jsonEqStr action "none")
  let observation := if doTool then dispatchTool tools action actionInput query else ""
  let prompt1 :=
    if doTool then prompt ++ "\n\nObservation: " ++ observation ++ "\nContinue reasoning."
    else prompt
  let verification : Option JsonValue :=
    if useVerifier && (pyTruthy thought || pyTruthy answer) then
      match verifier with
      | some vf => some (vf query (pyOrJ answer thought) observation)
      | none => none
    else none
  let prompt2 :=
    match verification with
    | some v =>
      let verdict := jsonGetD v "verdict" .null
      if jsonEqStr verdict "pass" then prompt1
      else if jsonEqStr verdict "fail" then
        prompt1 ++ "\n\nVerifier Feedback: " ++ pyStr (jsonGetD v "suggestion" (.str "")) ++
          "\nPlease refine your reasoning."
      else prompt1
    | none => prompt1
  let baseStop := pyTruthy answer && jsonEqStr action "none"
  { stored := result
    answer := answer
    verification := verification
    nextPrompt := prompt2
    shouldStop :=
      match verification with
      | some v =>
        if useVerifier && verifier.isSome && pyTruthy v then
          baseStop && jsonEqStr (jsonGetD v "verdict" .null) "pass"
        else baseStop
      | none => baseStop }

def advRunLoop (llm : String → JsonValue) (tools : List Tool)
    (verifier : Option (String → JsonValue → String → JsonValue))
    (useVerifier : Bool) (query : String) (maxIter : Nat) :
    Nat → String → List JsonValue → JsonValue → Option JsonValue → AdvResult
  | 0, _prompt, steps, lastAnswer, lastVer =>
    { answer := pyOrJ lastAnswer (.str "I couldn't find a complete answer."),
      steps := steps, iterations := maxIter, success := false, verification := lastVer }
  | fuel + 1, prompt, steps, _lastAnswer, _lastVer =>
    let s := advStep llm tools verifier useVerifier query prompt
    if s.shouldStop then
      { answer := s.answer, steps := steps ++ [s.stored], iterations := maxIter - fuel,
        success := true, verification := s.verification }
    else
      advRunLoop llm tools verifier useVerifier query maxIter fuel s.nextPrompt
        (steps ++ [s.stored]) s.answer s.verification

/-- `AdvancedReactAgent.run(query, max_iterations, use_verifier, ...)`. -/
def advRun (llm : String → JsonValue) (tools : List Tool)
    (verifier : Option (String → JsonValue → String → JsonValue))
    (useVerifier : Bool) (query : String) (initialPrompt : String) (maxIter : Nat) : AdvResult :=
  advRunLoop llm tools verifier useVerifier query maxIter maxIter initialPrompt [] (.str "") none

/-! ## `MemoryLayer` read accessors (memory.py lines 63-91)

The step history is the list of record dicts `add_step` appended.  The
readers are pure functions of the history — they cannot mutate it — and
a Python exception raised while reading is an `Except.error`. -/

/-- `step.get("thought", "")[:100]`: Python slicing, which raises
`TypeError` on a non-subscriptable value such as `None`. -/
def pySlice100 (v : JsonValue) : Except String JsonValue :=
  match v with
  | .str s => .ok (.str (String.mk (s.data.take 100)))
  | .arr xs => .ok (.arr (xs.take 100))
  | _ => .error "TypeError: value is not subscriptable"

/-- `MemoryLayer.get_summary` (lines 63-75). -/
def getSummary (history : List JsonValue) : Except String JsonValue :=
  match history.getLast? with
  | none => .ok (.str "No steps recorded")
  | some last =>
    let actions := history.filterMap (fun s =>
      let a := jsonGetD s "action" .null
      if pyTruthy a then some a else none)
    match jsonGetD last "verification" (.obj []) with
    | .obj kvs =>
      .ok (.obj [("total_steps", .num history.length 0),
                 ("actions_taken", .arr actions),
                 ("last_verdict", (dictFind kvs "verdict").getD .null)])
    | _ =>
      .error "AttributeError: the stored verification value has no attribute get"

/-- `MemoryLayer.get_context_summary` (lines 77-91); `maxSteps` is the
`max_steps` argument whose source default is 3. -/
def getContextSummary (history : List JsonValue) (maxSteps : Nat) : Except String String :=
  if history.isEmpty then .ok "No previous context"
  else do
    let recent := if maxSteps = 0 then history else history.drop (history.length - maxSteps)
    let lines ← recent.mapM (fun step => do
      let num := jsonGetD step "step" (.str "?")
      let thought ← pySlice100 (jsonGetD step "thought" (.str ""))
      let action := jsonGetD step "action" (.str "none")
      pure ("Step " ++ pyStr num ++ ": " ++ pyStr thought ++ "... (action: " ++
        pyStr action ++ ")"))
    pure (String.intercalate "\n" lines)

/-! ## Concrete inputs and stubs used by the claims -/

/-- Modelled from the spec: the transformation its §4.1 fallback
describes — "the raw text with leading determiner words and trailing
punctuation stripped".  Leading determiners are `a`/`an`/`the`
(case-insensitive, as in the repository's only determiner-stripping
code, `escape_room.py` lines 693-696); trailing punctuation is
`.,;:!?`.  This definition follows the spec's words, to be compared
with what `_call_llm` actually returns. -/
def specTrimmedRaw (s : String) : String :=
  let cs := stripChars s.data
  let lower := cs.map Char.toLower
  let cs1 :=
    if "the ".data.isPrefixOf lower then cs.drop 4
    else if "an ".data.isPrefixOf lower then cs.drop 3
    else if "a ".data.isPrefixOf lower then cs.drop 2
    else cs
  let isPunct : Char → Bool := fun c =>
    c == '.' || c == ',' || c == ';' || c == ':' || c == '!' || c == '?'
  String.mk (stripChars ((cs1.reverse.dropWhile isPunct).reverse))

/-- A response that is exactly one well-formed step object whose
`action_input` is a mapping (a nested JSON object). -/
def nestedInputRaw : String :=
  "\x7b\"thought\": \"t\", \"action\": \"calc\", \"action_input\": \x7b\"x\": 1\x7d, \"final_answer\": \"\"\x7d"

/-- The JSON object `nestedInputRaw` denotes. -/
def nestedInputStep : JsonValue :=
  .obj [("thought", .str "t"), ("action", .str "calc"),
        ("action_input", .obj [("x", .num 1 0)]), ("final_answer", .str "")]

/-- A response that is exactly one well-formed flat step object, with a
model-supplied (hallucinated) `observation`. -/
def flatInputRaw : String :=
  "\x7b\"thought\": \"t\", \"action\": \"search\", \"action_input\": \"q\", \"observation\": \"fake\", \"final_answer\": \"\"\x7d"

/-- The JSON object `flatInputRaw` denotes. -/
def flatInputStep : JsonValue :=
  .obj [("thought", .str "t"), ("action", .str "search"),
        ("action_input", .str "q"), ("observation", .str "fake"), ("final_answer", .str "")]

/-- Reasoning-model stub step: immediately final-answers `"4"`
(the spec's §8 scenario). -/
def answerStep : JsonValue :=
  .obj [("thought", .str "arithmetic"), ("action", .str "none"),
        ("action_input", .str ""), ("final_answer", .str "4")]

/-- Reasoning-model stub step: always invokes the tool `search`. -/
def searchStep : JsonValue :=
  .obj [("thought", .str "t"), ("action", .str "search"),
        ("action_input", .str "q"), ("final_answer", .str "")]

/-- A registered tool whose execution succeeds with `"RESULT"`. -/
def resultTool : Tool := { name := "search", execute := fun _ => .ok "RESULT" }

/-- A registered tool whose execution raises an error with message
`"timeout"`. -/
def timeoutTool : Tool := { name := "search", execute := fun _ => .error "timeout" }

/-- Verifier stub return: a verdict dict that always fails. -/
def failVerdict : JsonValue :=
  .obj [("verdict", .str "fail"), ("reason", .str "bad"),
        ("suggestion", .str "retry"), ("confidence", .num 0 0)]

/-- The run in which the attached verifier always returns the empty
dict (a value `verify` can produce: a model response whose first brace
block is `\x7b\x7d`). -/
def emptyVerifierRun : AdvResult :=
  advRun (fun _ => answerStep) [] (some (fun _ _ _ => .obj [])) true "q" "P" 3

/-- Did the verifier's model call fail to yield a decodable verdict?
(`true` on a timeout, a transport error, or a response whose first lazy
brace block is absent or fails `json.loads`.) -/
def verifierCallFails (outcome : HttpOutcome) : Bool :=
  match outcome with
  | .timeout => true
  | .error _ => true
  | .ok raw =>
    match (findBlocks (stripChars raw.data)).head? with
    | none => true
    | some b => (jsonLoads b).isNone

/-- The `reason` string `verify` reports for each failure cause. -/
def failureReason (outcome : HttpOutcome) (jsonErr : String) : String :=
  match outcome with
  | .timeout => "Verifier request timed out"
  | .error e => "Verifier error: " ++ e
  | .ok raw =>
    match (findBlocks (stripChars raw.data)).head? with
    | none => "Could not parse verifier response"
    | some _ => "Verifier error: " ++ jsonErr

/-- A memory record as `AdvancedReactAgent.run` stores it when no
verification happened this iteration: the `verification` field is
null (`None`). -/
def nullVerificationRecord : JsonValue :=
  .obj [("step", .num 1 0), ("thought", .str "t"), ("action", .str "none"),
        ("action_input", .str ""), ("observation", .str ""),
        ("answer", .str "4"), ("verification", .null)]

/-- A record with no `verification` key at all (the case the reader's
`.get("verification", \x7b\x7d)` default anticipates). -/
def missingVerificationRecord : JsonValue :=
  .obj [("step", .num 1 0), ("thought", .str "t"), ("action", .str "search"),
        ("action_input", .str "q"), ("observation", .str "o"), ("answer", .str "")]

/-- The prompt fed to the reasoning model on the (0-based) `n`-th pass
of `AdvancedReactAgent.run`, obtained by iterating the loop body's
prompt update from the initial prompt. -/
def advPromptAt (llm : String → JsonValue) (tools : List Tool)
    (verifier : Option (String → JsonValue → String → JsonValue))
    (useVerifier : Bool) (query : String) (p0 : String) : Nat → String
  | 0 => p0
  | n + 1 => (advStep llm tools verifier useVerifier query
      (advPromptAt llm tools verifier useVerifier query p0 n)).nextPrompt

/-! # Helper lemmas -/

theorem dictFind_dictInsert_self (kvs : List (String × JsonValue)) (k : String) (v : JsonValue) :
    dictFind (dictInsert kvs k v) k = some v := by
  induction kvs with
  | nil => simp [dictInsert, dictFind, List.find?]
  | cons kv rest ih =>
    obtain ⟨k', v'⟩ := kv
    by_cases h : k' = k
    · simp [dictInsert, h, dictFind, List.find?]
    · simp only [dictInsert, if_neg h]
      simpa [dictFind, List.find?, h] using ih

theorem dictFind_eq_none_of_not_containsKey (kvs : List (String × JsonValue)) (k : String)
    (h : containsKey kvs k = false) : dictFind kvs k = none := by
  induction kvs with
  | nil => simp [dictFind, List.find?]
  | cons kv rest ih =>
    simp only [containsKey, List.any_cons, Bool.or_eq_false_iff] at h
    have h1 : (kv.1 = k) = False := by
      simpa [decide_eq_false_iff_not] using h.1
    have h2 := ih (by simpa [containsKey] using h.2)
    simp only [dictFind, List.find?] at h2 ⊢
    simp [h1, h2]

/-- Every step `_call_llm` returns carries an empty (or absent)
observation: looked up with the loop's own default, the observation of
a candidate that survived `removeHallucinatedObservation` is `""`. -/
theorem jsonGetD_removeHallucinatedObservation (v : JsonValue) :
    jsonGetD (removeHallucinatedObservation v) "observation" (.str "") = .str "" := by
  cases v with
  | obj kvs =>
    by_cases h : containsKey kvs "observation" = true
    · simp [removeHallucinatedObservation, h, jsonGetD, dictFind_dictInsert_self]
    · have h' : containsKey kvs "observation" = false := by
        simpa using h
      simp [removeHallucinatedObservation, h', jsonGetD,
        dictFind_eq_none_of_not_containsKey _ _ h']
  | null => rfl
  | bool b => rfl
  | num q => rfl
  | str s => rfl
  | arr xs => rfl

/-- The observation field of whatever `parseLLMOutput` returns is empty
under the loop's default lookup: either the parser blanked it, the
candidate never had one, or the fallback step set it to `""`. -/
theorem jsonGetD_parseLLMOutput_observation (raw : String) :
    jsonGetD (parseLLMOutput raw) "observation" (.str "") = .str "" := by
  have hstep : parseLLMOutput raw =
      (match (parsedBlocks (cleanedContent raw)).getLast? with
       | some v => v
       | none => fallbackStep (cleanedContent raw)) := rfl
  cases hlast : (parsedBlocks (cleanedContent raw)).getLast? with
  | none =>
    rw [hstep, hlast]
    rfl
  | some v =>
    rw [hstep, hlast]
    show jsonGetD v "observation" (.str "") = .str ""
    have hmem : v ∈ parsedBlocks (cleanedContent raw) := by
      have := List.mem_getLast?_eq_getLast (l := parsedBlocks (cleanedContent raw)) (x := v)
        (by rw [hlast]; exact rfl)
      obtain ⟨hne, hv⟩ := this
      rw [hv]
      exact List.getLast_mem hne
    obtain ⟨b, _hb, hdec⟩ := List.mem_filterMap.mp hmem
    obtain ⟨v0, _hv0, hv0e⟩ := Option.map_eq_some'.mp hdec
    rw [← hv0e]
    exact jsonGetD_removeHallucinatedObservation v0

theorem baseStep_shouldStop_eq (llm : String → JsonValue) (tools : List Tool)
    (query p : String) :
    (baseStep llm tools query p).shouldStop =
      (pyTruthy (jsonGetD (llm p) "final_answer" (.str "")) &&
        jsonEqStr (jsonGetD (llm p) "action" (.str "none")) "none") := rfl

theorem advStep_stored_eq (llm : String → JsonValue) (tools : List Tool)
    (verifier : Option (String → JsonValue → String → JsonValue))
    (useVerifier : Bool) (query p : String) :
    (advStep llm tools verifier useVerifier query p).stored = llm p := rfl

theorem advStep_answer_eq (llm : String → JsonValue) (tools : List Tool)
    (verifier : Option (String → JsonValue → String → JsonValue))
    (useVerifier : Bool) (query p : String) :
    (advStep llm tools verifier useVerifier query p).answer =
      jsonGetD (llm p) "final_answer" (.str "") := rfl

theorem advStep_shouldStop_eq (llm : String → JsonValue) (tools : List Tool)
    (verifier : Option (String → JsonValue → String → JsonValue))
    (useVerifier : Bool) (query p : String) :
    (advStep llm tools verifier useVerifier query p).shouldStop =
      (match (advStep llm tools verifier useVerifier query p).verification with
       | some v =>
         if useVerifier && verifier.isSome && pyTruthy v then
           (pyTruthy (jsonGetD (llm p) "final_answer" (.str "")) &&
             jsonEqStr (jsonGetD (llm p) "action" (.str "none")) "none") &&
             jsonEqStr (jsonGetD v "verdict" .null) "pass"
         else
           pyTruthy (jsonGetD (llm p) "final_answer" (.str "")) &&
             jsonEqStr (jsonGetD (llm p) "action" (.str "none")) "none"
       | none =>
         pyTruthy (jsonGetD (llm p) "final_answer" (.str "")) &&
           jsonEqStr (jsonGetD (llm p) "action" (.str "none")) "none") := rfl

/-- A pass whose parsed step does not satisfy "truthy final answer and
action equal to the none sentinel" never stops the advanced loop,
whatever the verifier said. -/
theorem advStep_shouldStop_of_noFinalAnswer (llm : String → JsonValue) (tools : List Tool)
    (verifier : Option (String → JsonValue → String → JsonValue))
    (useVerifier : Bool) (query p : String)
    (h : (pyTruthy (jsonGetD (llm p) "final_answer" (.str "")) &&
      jsonEqStr (jsonGetD (llm p) "action" (.str "none")) "none") = false) :
    (advStep llm tools verifier useVerifier query p).shouldStop = false := by
  rw [advStep_shouldStop_eq]
  cases (advStep llm tools verifier useVerifier query p).verification with
  | none => exact h
  | some v => split <;> simp [h]

/-- With verification disabled or no verifier attached, this pass's
verification is absent and the stop decision is exactly "truthy final
answer and action none". -/
theorem advStep_disabled (llm : String → JsonValue) (tools : List Tool)
    (verifier : Option (String → JsonValue → String → JsonValue))
    (useVerifier : Bool) (query p : String)
    (hdis : useVerifier = false ∨ verifier = none) :
    (advStep llm tools verifier useVerifier query p).verification = none ∧
    (advStep llm tools verifier useVerifier query p).shouldStop =
      (pyTruthy (jsonGetD (llm p) "final_answer" (.str "")) &&
        jsonEqStr (jsonGetD (llm p) "action" (.str "none")) "none") := by
  have hv : (advStep llm tools verifier useVerifier query p).verification = none := by
    show (if useVerifier && (pyTruthy (jsonGetD (llm p) "thought" (.str "")) ||
        pyTruthy (jsonGetD (llm p) "final_answer" (.str ""))) then
          match verifier with
          | some vf => some (vf query
              (pyOrJ (jsonGetD (llm p) "final_answer" (.str ""))
                (jsonGetD (llm p) "thought" (.str "")))
              (if pyTruthy (jsonGetD (llm p) "action" (.str "none")) &&
                  !(jsonEqStr (jsonGetD (llm p) "action" (.str "none")) "none") then
                dispatchTool tools (jsonGetD (llm p) "action" (.str "none"))
                  (jsonGetD (llm p) "action_input" (.str "")) query
              else ""))
          | none => none
        else none) = none
    rcases hdis with h | h
    · simp [h]
    · subst h
      split <;> rfl
  refine ⟨hv, ?_⟩
  rw [advStep_shouldStop_eq, hv]

/-- When this pass's parsed step has a truthy final answer, an attached
and enabled verifier is consulted: the verification is its verdict on
some candidate and observation. -/
theorem advStep_verification_some_of_answer (llm : String → JsonValue) (tools : List Tool)
    (vf : String → JsonValue → String → JsonValue) (query p : String)
    (hans : pyTruthy (jsonGetD (llm p) "final_answer" (.str "")) = true) :
    ∃ a o, (advStep llm tools (some vf) true query p).verification = some (vf query a o) := by
  simp only [advStep, hans, Bool.or_true, Bool.true_and, if_true]
  exact ⟨_, _, rfl⟩

/-- A pass never stops when the attached, enabled verifier always
returns a truthy verdict dict whose verdict differs from `pass`. -/
theorem advStep_shouldStop_verifier_noPass (llm : String → JsonValue) (tools : List Tool)
    (vf : String → JsonValue → String → JsonValue) (query p : String)
    (h1 : ∀ q a o, pyTruthy (vf q a o) = true)
    (h2 : ∀ q a o, jsonEqStr (jsonGetD (vf q a o) "verdict" .null) "pass" = false) :
    (advStep llm tools (some vf) true query p).shouldStop = false := by
  by_cases hX : (pyTruthy (jsonGetD (llm p) "final_answer" (.str "")) &&
      jsonEqStr (jsonGetD (llm p) "action" (.str "none")) "none") = false
  · exact advStep_shouldStop_of_noFinalAnswer llm tools (some vf) true query p hX
  · have hXt : (pyTruthy (jsonGetD (llm p) "final_answer" (.str "")) &&
        jsonEqStr (jsonGetD (llm p) "action" (.str "none")) "none") = true := by
      revert hX
      cases pyTruthy (jsonGetD (llm p) "final_answer" (.str "")) &&
        jsonEqStr (jsonGetD (llm p) "action" (.str "none")) "none" <;> simp
    have hans : pyTruthy (jsonGetD (llm p) "final_answer" (.str "")) = true := by
      simp only [Bool.and_eq_true] at hXt
      exact hXt.1
    obtain ⟨a, o, hv⟩ := advStep_verification_some_of_answer llm tools vf query p hans
    rw [advStep_shouldStop_eq, hv]
    simp [h1, h2]

/-- If no pass can stop the advanced loop, it exhausts its fuel:
no success, iteration count pinned at the ceiling, one recorded step
(one reasoning-model call) per unit of fuel. -/
theorem advRunLoop_noStop (llm : String → JsonValue) (tools : List Tool)
    (verifier : Option (String → JsonValue → String → JsonValue))
    (useVerifier : Bool) (query : String) (maxIter : Nat)
    (H : ∀ p, (advStep llm tools verifier useVerifier query p).shouldStop = false) :
    ∀ fuel prompt steps lastA lastV,
      (advRunLoop llm tools verifier useVerifier query maxIter fuel prompt steps
        lastA lastV).success = false ∧
      (advRunLoop llm tools verifier useVerifier query maxIter fuel prompt steps
        lastA lastV).iterations = maxIter ∧
      (advRunLoop llm tools verifier useVerifier query maxIter fuel prompt steps
        lastA lastV).steps.length = steps.length + fuel := by
  intro fuel
  induction fuel with
  | zero => intro prompt steps lastA lastV; exact ⟨rfl, rfl, rfl⟩
  | succ n ih =>
    intro prompt steps lastA lastV
    have h := ih (advStep llm tools verifier useVerifier query prompt).nextPrompt
      (steps ++ [(advStep llm tools verifier useVerifier query prompt).stored])
      (advStep llm tools verifier useVerifier query prompt).answer
      (advStep llm tools verifier useVerifier query prompt).verification
    simp only [advRunLoop, H prompt, if_false, Bool.false_eq_true]
    refine ⟨h.1, h.2.1, ?_⟩
    rw [h.2.2]
    simp only [List.length_append, List.length_cons, List.length_nil]
    omega

/-- Counterpart of `advRunLoop_noStop` for the base loop. -/
theorem baseRunLoop_noStop (llm : String → JsonValue) (tools : List Tool)
    (query : String) (maxIter : Nat)
    (H : ∀ p, (baseStep llm tools query p).shouldStop = false) :
    ∀ fuel prompt steps lastA,
      (baseRunLoop llm tools query maxIter fuel prompt steps lastA).success = false ∧
      (baseRunLoop llm tools query maxIter fuel prompt steps lastA).iterations = maxIter ∧
      (baseRunLoop llm tools query maxIter fuel prompt steps lastA).steps.length =
        steps.length + fuel := by
  intro fuel
  induction fuel with
  | zero => intro prompt steps lastA; exact ⟨rfl, rfl, rfl⟩
  | succ n ih =>
    intro prompt steps lastA
    have h := ih (baseStep llm tools query prompt).nextPrompt
      (steps ++ [(baseStep llm tools query prompt).stored])
      (baseStep llm tools query prompt).answer
    simp only [baseRunLoop, H prompt, if_false, Bool.false_eq_true]
    refine ⟨h.1, h.2.1, ?_⟩
    rw [h.2.2]
    simp only [List.length_append, List.length_cons, List.length_nil]
    omega

/-- The advanced loop records at most one step (one reasoning-model
call) per unit of fuel, whatever the model and verifier do. -/
theorem advRunLoop_steps_length_le (llm : String → JsonValue) (tools : List Tool)
    (verifier : Option (String → JsonValue → String → JsonValue))
    (useVerifier : Bool) (query : String) (maxIter : Nat) :
    ∀ fuel prompt steps lastA lastV,
      (advRunLoop llm tools verifier useVerifier query maxIter fuel prompt steps
        lastA lastV).steps.length ≤ steps.length + fuel := by
  intro fuel
  induction fuel with
  | zero => intro prompt steps lastA lastV; exact Nat.le_refl _
  | succ n ih =>
    intro prompt steps lastA lastV
    simp only [advRunLoop]
    by_cases hs : (advStep llm tools verifier useVerifier query prompt).shouldStop = true
    · simp only [hs, if_true]
      simp only [List.length_append, List.length_cons, List.length_nil]
      omega
    · have hs' : (advStep llm tools verifier useVerifier query prompt).shouldStop = false := by
        revert hs
        cases (advStep llm tools verifier useVerifier query prompt).shouldStop <;> simp
      simp only [hs', if_false, Bool.false_eq_true]
      have h := ih (advStep llm tools verifier useVerifier query prompt).nextPrompt
        (steps ++ [(advStep llm tools verifier useVerifier query prompt).stored])
        (advStep llm tools verifier useVerifier query prompt).answer
        (advStep llm tools verifier useVerifier query prompt).verification
      simp only [List.length_append, List.length_cons, List.length_nil] at h
      omega

/-- Counterpart of `advRunLoop_steps_length_le` for the base loop. -/
theorem baseRunLoop_steps_length_le (llm : String → JsonValue) (tools : List Tool)
    (query : String) (maxIter : Nat) :
    ∀ fuel prompt steps lastA,
      (baseRunLoop llm tools query maxIter fuel prompt steps lastA).steps.length ≤
        steps.length + fuel := by
  intro fuel
  induction fuel with
  | zero => intro prompt steps lastA; exact Nat.le_refl _
  | succ n ih =>
    intro prompt steps lastA
    simp only [baseRunLoop]
    by_cases hs : (baseStep llm tools query prompt).shouldStop = true
    · simp only [hs, if_true]
      simp only [List.length_append, List.length_cons, List.length_nil]
      omega
    · have hs' : (baseStep llm tools query prompt).shouldStop = false := by
        revert hs
        cases (baseStep llm tools query prompt).shouldStop <;> simp
      simp only [hs', if_false, Bool.false_eq_true]
      have h := ih (baseStep llm tools query prompt).nextPrompt
        (steps ++ [(baseStep llm tools query prompt).stored])
        (baseStep llm tools query prompt).answer
      simp only [List.length_append, List.length_cons, List.length_nil] at h
      omega

theorem advPromptAt_shift (llm : String → JsonValue) (tools : List Tool)
    (verifier : Option (String → JsonValue → String → JsonValue))
    (useVerifier : Bool) (query p0 : String) :
    ∀ j, advPromptAt llm tools verifier useVerifier query
        ((advStep llm tools verifier useVerifier query p0).nextPrompt) j =
      advPromptAt llm tools verifier useVerifier query p0 (j + 1) := by
  intro j
  induction j with
  | zero => rfl
  | succ n ih =>
    show (advStep llm tools verifier useVerifier query
      (advPromptAt llm tools verifier useVerifier query
        ((advStep llm tools verifier useVerifier query p0).nextPrompt) n)).nextPrompt = _
    rw [ih]
    rfl

/-- If the first stopping pass is the (0-based) `k`-th one and there is
fuel to reach it, the advanced loop returns success there with the
1-based iteration count, that pass's answer, and that pass's
verification. -/
theorem advRunLoop_firstStop (llm : String → JsonValue) (tools : List Tool)
    (verifier : Option (String → JsonValue → String → JsonValue))
    (useVerifier : Bool) (query : String) (maxIter : Nat) :
    ∀ k fuel prompt steps lastA lastV,
      fuel ≤ maxIter → k < fuel →
      (∀ j, j < k → (advStep llm tools verifier useVerifier query
        (advPromptAt llm tools verifier useVerifier query prompt j)).shouldStop = false) →
      (advStep llm tools verifier useVerifier query
        (advPromptAt llm tools verifier useVerifier query prompt k)).shouldStop = true →
      (advRunLoop llm tools verifier useVerifier query maxIter fuel prompt steps
        lastA lastV).success = true ∧
      (advRunLoop llm tools verifier useVerifier query maxIter fuel prompt steps
        lastA lastV).iterations = maxIter - fuel + k + 1 ∧
      (advRunLoop llm tools verifier useVerifier query maxIter fuel prompt steps
        lastA lastV).answer = (advStep llm tools verifier useVerifier query
          (advPromptAt llm tools verifier useVerifier query prompt k)).answer ∧
      (advRunLoop llm tools verifier useVerifier query maxIter fuel prompt steps
        lastA lastV).verification = (advStep llm tools verifier useVerifier query
          (advPromptAt llm tools verifier useVerifier query prompt k)).verification := by
  intro k
  induction k with
  | zero =>
    intro fuel prompt steps lastA lastV hfuel hk _hbefore hstop
    cases fuel with
    | zero => omega
    | succ f =>
      have hstop' : (advStep llm tools verifier useVerifier query prompt).shouldStop = true :=
        hstop
      simp only [advRunLoop, hstop', if_true]
      refine ⟨by trivial, by omega, by rfl, by rfl⟩
  | succ n ih =>
    intro fuel prompt steps lastA lastV hfuel hk hbefore hstop
    cases fuel with
    | zero => omega
    | succ f =>
      have h0 : (advStep llm tools verifier useVerifier query prompt).shouldStop = false := by
        have := hbefore 0 (Nat.succ_pos n)
        exact this
      simp only [advRunLoop, h0, if_false, Bool.false_eq_true]
      have hbefore' : ∀ j, j < n → (advStep llm tools verifier useVerifier query
          (advPromptAt llm tools verifier useVerifier query
            ((advStep llm tools verifier useVerifier query prompt).nextPrompt) j)).shouldStop
            = false := by
        intro j hj
        rw [advPromptAt_shift]
        exact hbefore (j + 1) (by omega)
      have hstop' : (advStep llm tools verifier useVerifier query
          (advPromptAt llm tools verifier useVerifier query
            ((advStep llm tools verifier useVerifier query prompt).nextPrompt) n)).shouldStop
          = true := by
        rw [advPromptAt_shift]
        exact hstop
      have h := ih f ((advStep llm tools verifier useVerifier query prompt).nextPrompt)
        (steps ++ [(advStep llm tools verifier useVerifier query prompt).stored])
        (advStep llm tools verifier useVerifier query prompt).answer
        (advStep llm tools verifier useVerifier query prompt).verification
        (by omega) (by omega) hbefore' hstop'
      rw [advPromptAt_shift] at h
      refine ⟨h.1, ?_, h.2.2.1, h.2.2.2⟩
      rw [h.2.1]
      omega

/-- Every step the advanced loop ever stores is a value the
reasoning-model parser handed it (appended at line 52 of
react_agent.py and never updated). -/
theorem advRunLoop_steps_mem (llm : String → JsonValue) (tools : List Tool)
    (verifier : Option (String → JsonValue → String → JsonValue))
    (useVerifier : Bool) (query : String) (maxIter : Nat) :
    ∀ fuel prompt steps lastA lastV s,
      s ∈ (advRunLoop llm tools verifier useVerifier query maxIter fuel prompt steps
        lastA lastV).steps →
      s ∈ steps ∨ ∃ p, s = llm p := by
  intro fuel
  induction fuel with
  | zero => intro prompt steps lastA lastV s hs; exact Or.inl hs
  | succ n ih =>
    intro prompt steps lastA lastV s hs
    simp only [advRunLoop] at hs
    by_cases hc : (advStep llm tools verifier useVerifier query prompt).shouldStop = true
    · rw [if_pos hc] at hs
      rcases List.mem_append.mp hs with h | h
      · exact Or.inl h
      · right
        refine ⟨prompt, ?_⟩
        rw [List.mem_singleton.mp h]
        rfl
    · rw [if_neg hc] at hs
      rcases ih _ _ _ _ s hs with h | h
      · rcases List.mem_append.mp h with h2 | h2
        · exact Or.inl h2
        · right
          refine ⟨prompt, ?_⟩
          rw [List.mem_singleton.mp h2]
          rfl
      · exact Or.inr h

/-! # Claim theorems -/

/-- C1: the claim says `_call_llm` returns the last successfully
decoded brace candidate with `observation` forced empty, and in
particular that a response that is exactly one well-formed step object
*including one whose `action_input` is a mapping* parses to that object
with `observation` emptied.  The code fails the nested case: the lazy
regex truncates at the first closing brace, `nestedInputRaw` (exactly
one well-formed step object whose `action_input` is a mapping) yields
zero decodable candidates, and the parser returns the degenerate
fallback step (action `"none"`) instead of that object with
`observation` emptied — their `action` fields already differ.  For a
flat object the claimed behaviour does hold: `flatInputRaw` parses to
its object with the hallucinated `observation` blanked. -/
theorem C1_nested_action_input_defeats_brace_scan :
    jsonLoads nestedInputRaw.data = some nestedInputStep ∧
    parseLLMOutput nestedInputRaw = fallbackStep (cleanedContent nestedInputRaw) ∧
    jsonGetD (parseLLMOutput nestedInputRaw) "action" .null = .str "none" ∧
    jsonGetD (removeHallucinatedObservation nestedInputStep) "action" .null = .str "calc" ∧
    parseLLMOutput flatInputRaw = removeHallucinatedObservation flatInputStep ∧
    jsonGetD (parseLLMOutput flatInputRaw) "observation" .null = .str "" :=
  ⟨rfl, rfl, rfl, rfl, rfl, rfl⟩

/-- C2 counterexample: for the response `"The answer is 42."` (zero
decodable candidates) the fallback's `final_answer` is the verbatim
text — the leading determiner `The` and the trailing period survive —
not the determiner/punctuation-stripped text the claim describes. -/
theorem C2_no_determiner_or_punctuation_stripping :
    parsedBlocks (cleanedContent "The answer is 42.") = [] ∧
    jsonGetD (parseLLMOutput "The answer is 42.") "final_answer" .null =
      .str "The answer is 42." ∧
    specTrimmedRaw "The answer is 42." = "answer is 42" ∧
    ("The answer is 42." : String) ≠ specTrimmedRaw "The answer is 42." :=
  ⟨rfl, rfl, rfl, by decide⟩

/-- C2 as amended: for every response with zero decodable brace
candidates, `_call_llm` returns the degenerate step whose `action` is
`"none"` and whose `final_answer` is the whitespace-stripped raw text
with `</think>` occurrences removed (no determiner or punctuation
stripping), or the fixed non-empty placeholder `"No output from model"`
when that text is empty (in particular for empty or whitespace-only
raw text); the returned `final_answer` is never the empty string, and
the fallback is a total function of the text — it never raises. -/
theorem C2_fallback_step_on_undecodable_response (raw : String)
    (h : parsedBlocks (cleanedContent raw) = []) :
    parseLLMOutput raw = fallbackStep (cleanedContent raw) ∧
    jsonGetD (parseLLMOutput raw) "action" .null = .str "none" ∧
    jsonGetD (parseLLMOutput raw) "final_answer" .null =
      .str (if (cleanedContent raw).isEmpty then "No output from model"
            else String.mk (cleanedContent raw)) ∧
    jsonEqStr (jsonGetD (parseLLMOutput raw) "final_answer" .null) "" = false := by
  have hstep : parseLLMOutput raw =
      (match (parsedBlocks (cleanedContent raw)).getLast? with
       | some v => v
       | none => fallbackStep (cleanedContent raw)) := rfl
  have hfb : parseLLMOutput raw = fallbackStep (cleanedContent raw) := by
    rw [hstep, h]
    rfl
  refine ⟨hfb, ?_, ?_, ?_⟩
  · rw [hfb]
    rfl
  · rw [hfb]
    rfl
  · rw [hfb]
    cases hcs : cleanedContent raw with
    | nil => rfl
    | cons a as =>
      simp [fallbackStep, jsonGetD, dictFind, List.find?, jsonEqStr, String.ext_iff]

/-- C2 witness: the amended fallback facts at the concrete undecodable
response `"hello"`. -/
theorem C2_fallback_witness :
    parseLLMOutput "hello" = fallbackStep (cleanedContent "hello") ∧
    jsonGetD (parseLLMOutput "hello") "action" .null = .str "none" ∧
    jsonGetD (parseLLMOutput "hello") "final_answer" .null =
      .str (if (cleanedContent "hello").isEmpty then "No output from model"
            else String.mk (cleanedContent "hello")) ∧
    jsonEqStr (jsonGetD (parseLLMOutput "hello") "final_answer" .null) "" = false :=
  C2_fallback_step_on_undecodable_response "hello" rfl

/-- C3: for every query and every ceiling, each loop records at most
one step per allowed iteration (so at most `max_iterations`
reasoning-model calls); and driven by a constant stub whose parsed
action is a string other than the `"none"` sentinel (a tool-invoking
action), both `BaseReActAgent.run` and `AdvancedReactAgent.run` make
exactly `max_iterations` calls and return `success = false` with
`iterations = max_iterations` — never an unbounded loop. -/
theorem C3_loop_terminates_at_ceiling (stub : JsonValue) (a : String)
    (tools : List Tool) (verifier : Option (String → JsonValue → String → JsonValue))
    (useVerifier : Bool) (query p0 : String) (maxIter : Nat)
    (hact : jsonGetD stub "action" (.str "none") = .str a)
    (hne : a ≠ "none") (_hpos : 1 ≤ maxIter) :
    (∀ llm : String → JsonValue,
      (advRun llm tools verifier useVerifier query p0 maxIter).steps.length ≤ maxIter ∧
      (baseRun llm tools query p0 maxIter).steps.length ≤ maxIter) ∧
    (advRun (fun _ => stub) tools verifier useVerifier query p0 maxIter).success = false ∧
    (advRun (fun _ => stub) tools verifier useVerifier query p0 maxIter).iterations = maxIter ∧
    (advRun (fun _ => stub) tools verifier useVerifier query p0 maxIter).steps.length = maxIter ∧
    (baseRun (fun _ => stub) tools query p0 maxIter).success = false ∧
    (baseRun (fun _ => stub) tools query p0 maxIter).iterations = maxIter ∧
    (baseRun (fun _ => stub) tools query p0 maxIter).steps.length = maxIter := by
  have hstopcond : ∀ p : String,
      (pyTruthy (jsonGetD ((fun _ : String => stub) p) "final_answer" (.str "")) &&
        jsonEqStr (jsonGetD ((fun _ : String => stub) p) "action" (.str "none")) "none")
        = false := by
    intro p
    have : jsonEqStr (jsonGetD stub "action" (.str "none")) "none" = false := by
      rw [hact]
      simp [jsonEqStr, hne]
    simp only [this, Bool.and_false]
  have Hadv : ∀ p, (advStep (fun _ => stub) tools verifier useVerifier query p).shouldStop
      = false :=
    fun p => advStep_shouldStop_of_noFinalAnswer _ _ _ _ _ _ (hstopcond p)
  have Hbase : ∀ p, (baseStep (fun _ => stub) tools query p).shouldStop = false := by
    intro p
    rw [baseStep_shouldStop_eq]
    exact hstopcond p
  have hadv := advRunLoop_noStop (fun _ => stub) tools verifier useVerifier query maxIter
    Hadv maxIter p0 [] (.str "") none
  have hbase := baseRunLoop_noStop (fun _ => stub) tools query maxIter Hbase maxIter p0 []
    (.str "")
  refine ⟨?_, hadv.1, hadv.2.1, ?_, hbase.1, hbase.2.1, ?_⟩
  · intro llm
    have h1 := advRunLoop_steps_length_le llm tools verifier useVerifier query maxIter
      maxIter p0 [] (.str "") none
    have h2 := baseRunLoop_steps_length_le llm tools query maxIter maxIter p0 [] (.str "")
    simpa using And.intro h1 h2
  · have := hadv.2.2
    simpa using this
  · have := hbase.2.2
    simpa using this

/-- C3 witness: the constant tool-invoking stub `searchStep` with
ceiling 2 drives both loops to the ceiling. -/
theorem C3_witness :
    (advRun (fun _ => searchStep) [] none false "q" "P" 2).success = false ∧
    (advRun (fun _ => searchStep) [] none false "q" "P" 2).iterations = 2 ∧
    (advRun (fun _ => searchStep) [] none false "q" "P" 2).steps.length = 2 ∧
    (baseRun (fun _ => searchStep) [] "q" "P" 2).success = false ∧
    (baseRun (fun _ => searchStep) [] "q" "P" 2).iterations = 2 ∧
    (baseRun (fun _ => searchStep) [] "q" "P" 2).steps.length = 2 := by
  have h := C3_loop_terminates_at_ceiling searchStep "search" [] none false "q" "P" 2
    rfl (by decide) (by decide)
  exact ⟨h.2.1, h.2.2.1, h.2.2.2.1, h.2.2.2.2.1, h.2.2.2.2.2.1, h.2.2.2.2.2.2⟩

/-- C4: with verification disabled (or no verifier attached),
`AdvancedReactAgent.run` stops at the first iteration whose parsed step
has action `"none"` and a truthy (non-empty) `final_answer`, returning
`success = true`, that step's `final_answer` as the answer, and that
iteration's 1-based number: if the first `k` passes (0-based) do not
satisfy the stop condition and pass `k` does, within the ceiling, the
result is success at iteration `k + 1`. -/
theorem C4_stops_at_first_final_answer
    (llm : String → JsonValue) (tools : List Tool)
    (verifier : Option (String → JsonValue → String → JsonValue))
    (useVerifier : Bool) (query p0 : String) (maxIter k : Nat)
    (hdis : useVerifier = false ∨ verifier = none)
    (hk : k < maxIter)
    (hbefore : ∀ j, j < k →
      (pyTruthy (jsonGetD (llm (advPromptAt llm tools verifier useVerifier query p0 j))
          "final_answer" (.str "")) &&
        jsonEqStr (jsonGetD (llm (advPromptAt llm tools verifier useVerifier query p0 j))
          "action" (.str "none")) "none") = false)
    (hstop : (pyTruthy (jsonGetD (llm (advPromptAt llm tools verifier useVerifier query p0 k))
          "final_answer" (.str "")) &&
        jsonEqStr (jsonGetD (llm (advPromptAt llm tools verifier useVerifier query p0 k))
          "action" (.str "none")) "none") = true) :
    (advRun llm tools verifier useVerifier query p0 maxIter).success = true ∧
    (advRun llm tools verifier useVerifier query p0 maxIter).iterations = k + 1 ∧
    (advRun llm tools verifier useVerifier query p0 maxIter).answer =
      jsonGetD (llm (advPromptAt llm tools verifier useVerifier query p0 k))
        "final_answer" (.str "") := by
  have hbefore' : ∀ j, j < k → (advStep llm tools verifier useVerifier query
      (advPromptAt llm tools verifier useVerifier query p0 j)).shouldStop = false := by
    intro j hj
    rw [(advStep_disabled llm tools verifier useVerifier query _ hdis).2]
    exact hbefore j hj
  have hstop' : (advStep llm tools verifier useVerifier query
      (advPromptAt llm tools verifier useVerifier query p0 k)).shouldStop = true := by
    rw [(advStep_disabled llm tools verifier useVerifier query _ hdis).2]
    exact hstop
  have h := advRunLoop_firstStop llm tools verifier useVerifier query maxIter k maxIter
    p0 [] (.str "") none (Nat.le_refl _) hk hbefore' hstop'
  have h21 : (advRun llm tools verifier useVerifier query p0 maxIter).iterations =
      maxIter - maxIter + k + 1 := h.2.1
  have h22 : (advRun llm tools verifier useVerifier query p0 maxIter).answer =
      (advStep llm tools verifier useVerifier query
        (advPromptAt llm tools verifier useVerifier query p0 k)).answer := h.2.2.1
  refine ⟨h.1, ?_, ?_⟩
  · rw [h21]
    omega
  · rw [h22, advStep_answer_eq]

/-- C4 witness: the spec's §8 scenario — ceiling 3, constant stub
`\x7bthought:"arithmetic", action:"none", action_input:"",
final_answer:"4"\x7d` — gives answer `"4"`, 1 iteration, success. -/
theorem C4_witness :
    (advRun (fun _ => answerStep) [] none false "What is 2+2" "P" 3).success = true ∧
    (advRun (fun _ => answerStep) [] none false "What is 2+2" "P" 3).iterations = 1 ∧
    (advRun (fun _ => answerStep) [] none false "What is 2+2" "P" 3).answer = .str "4" := by
  have h := C4_stops_at_first_final_answer (fun _ => answerStep) [] none false
    "What is 2+2" "P" 3 0 (Or.inl rfl) (by decide) (fun j hj => absurd hj (by omega))
    (by decide)
  exact ⟨h.1, h.2.1, h.2.2.trans rfl⟩

/-- C5 counterexample: the claim "the loop never stops with success on
an iteration whose verdict is anything other than pass" fails when the
attached, enabled verifier returns the empty dict (a value `verify` can
produce from a model response whose first brace block is `\x7b\x7d`):
the empty dict is falsy, the verdict gate at react_agent.py line 136 is
skipped, and the loop stops with success at iteration 1 although the
verdict of that iteration's verification is not `"pass"`. -/
theorem C5_empty_verdict_dict_stops_with_success :
    emptyVerifierRun.success = true ∧
    emptyVerifierRun.iterations = 1 ∧
    emptyVerifierRun.verification = some (.obj []) ∧
    jsonEqStr (jsonGetD (.obj []) "verdict" .null) "pass" = false :=
  ⟨rfl, rfl, rfl, by decide⟩

/-- C5 as amended: when verification is enabled and the attached
verifier always returns a truthy (non-empty) verdict mapping whose
verdict is not `"pass"` — in particular a stub that always fails or is
always uncertain — the loop never stops with success: for every
reasoning model it runs until the iteration ceiling and returns
`success = false` with `iterations` equal to the ceiling. -/
theorem C5_verifier_gate_forces_ceiling
    (llm : String → JsonValue) (tools : List Tool)
    (vf : String → JsonValue → String → JsonValue) (query p0 : String) (maxIter : Nat)
    (h1 : ∀ q a o, pyTruthy (vf q a o) = true)
    (h2 : ∀ q a o, jsonEqStr (jsonGetD (vf q a o) "verdict" .null) "pass" = false) :
    (advRun llm tools (some vf) true query p0 maxIter).success = false ∧
    (advRun llm tools (some vf) true query p0 maxIter).iterations = maxIter := by
  have H : ∀ p, (advStep llm tools (some vf) true query p).shouldStop = false :=
    fun p => advStep_shouldStop_verifier_noPass llm tools vf query p h1 h2
  have h := advRunLoop_noStop llm tools (some vf) true query maxIter H maxIter p0 []
    (.str "") none
  exact ⟨h.1, h.2.1⟩

/-- C5 witness: an always-`fail` verifier stub holds the loop at the
ceiling even though the reasoning stub supplies a final answer every
iteration. -/
theorem C5_witness :
    (advRun (fun _ => answerStep) [] (some (fun _ _ _ => failVerdict)) true "q" "P" 2).success
      = false ∧
    (advRun (fun _ => answerStep) [] (some (fun _ _ _ => failVerdict)) true "q" "P" 2).iterations
      = 2 :=
  C5_verifier_gate_forces_ceiling (fun _ => answerStep) [] (fun _ _ _ => failVerdict)
    "q" "P" 2 (fun _ _ _ => rfl) (fun _ _ _ => rfl)

/-- C6: tool-input normalization — the ordered sequence `["a","b"]`
joins with single spaces to `"a b"`; the mapping `\x7b"x": 1\x7d` renders to
`"x: 1"` (so the normalized string contains `"x: 1"`); the empty string
normalizes to the original query; and in general whenever the rendered,
stripped input is empty the original user query is substituted. -/
theorem C6_input_normalization (q : String) :
    normalizeActionInput (.arr [.str "a", .str "b"]) q = "a b" ∧
    normalizeActionInput (.obj [("x", .num 1 0)]) q = "x: 1" ∧
    hasSubstr "x: 1".data (normalizeActionInput (.obj [("x", .num 1 0)]) q).data = true ∧
    normalizeActionInput (.str "") q = q ∧
    (∀ actionInput : JsonValue,
      String.mk (stripChars (renderActionInput actionInput).data) = "" →
      normalizeActionInput actionInput q = q) := by
  refine ⟨rfl, rfl, rfl, rfl, ?_⟩
  intro actionInput h
  simp only [normalizeActionInput]
  rw [if_pos h]

/-- C6 witness: the normalization facts at the concrete query
`"orig query"`, with the empty-after-stripping hypothesis discharged
for the whitespace-only input `" "`. -/
theorem C6_witness :
    normalizeActionInput (.arr [.str "a", .str "b"]) "orig query" = "a b" ∧
    normalizeActionInput (.str "") "orig query" = "orig query" ∧
    normalizeActionInput (.str " ") "orig query" = "orig query" := by
  have h := C6_input_normalization "orig query"
  exact ⟨h.1, h.2.2.2.1, h.2.2.2.2 (.str " ") rfl⟩

/-- C7: tool-failure containment — a tool raising an error with message
`"timeout"` yields the observation `"Tool error: timeout"` (which
contains `"timeout"`), an action naming an unregistered tool yields the
descriptive `"Unknown tool: ..."` observation, the base loop records
that error observation in the stored step, and both loops keep running
to the next iteration (here: to the ceiling of 2) instead of raising. -/
theorem C7_tool_failure_containment :
    dispatchTool [timeoutTool] (.str "search") (.str "q") "orig" = "Tool error: timeout" ∧
    hasSubstr "timeout".data "Tool error: timeout".data = true ∧
    dispatchTool [timeoutTool] (.str "web") (.str "q") "orig" = "Unknown tool: web" ∧
    jsonGetD ((baseRun (fun _ => searchStep) [timeoutTool] "q" "P" 2).steps.getD 0 .null)
      "observation" .null = .str "Tool error: timeout" ∧
    (baseRun (fun _ => searchStep) [timeoutTool] "q" "P" 2).success = false ∧
    (baseRun (fun _ => searchStep) [timeoutTool] "q" "P" 2).iterations = 2 ∧
    (baseRun (fun _ => searchStep) [timeoutTool] "q" "P" 2).steps.length = 2 ∧
    (advRun (fun _ => searchStep) [timeoutTool] none false "q" "P" 2).success = false ∧
    (advRun (fun _ => searchStep) [timeoutTool] none false "q" "P" 2).iterations = 2 ∧
    (advRun (fun _ => searchStep) [timeoutTool] none false "q" "P" 2).steps.length = 2 :=
  ⟨rfl, rfl, rfl, rfl, rfl, rfl, rfl, rfl, rfl, rfl⟩

/-- C8: verifier-failure absorption — whenever the verifier's model
call fails (network timeout, transport/processing error, or a response
with no decodable JSON object), `verify` returns the verdict dict
`\x7bverdict: "uncertain", confidence: 0.0, reason: <cause>,
suggestion: ""\x7d`; being a total function of the outcome, it never
propagates an exception to its caller. -/
theorem C8_verifier_failure_absorbed (outcome : HttpOutcome) (jsonErr : String)
    (h : verifierCallFails outcome = true) :
    verifierVerify outcome jsonErr = uncertainVerdict (failureReason outcome jsonErr) ∧
    jsonGetD (verifierVerify outcome jsonErr) "verdict" .null = .str "uncertain" ∧
    jsonGetD (verifierVerify outcome jsonErr) "confidence" .null = .num 0 0 ∧
    jsonGetD (verifierVerify outcome jsonErr) "suggestion" .null = .str "" ∧
    jsonGetD (verifierVerify outcome jsonErr) "reason" .null =
      .str (failureReason outcome jsonErr) := by
  have heq : verifierVerify outcome jsonErr =
      uncertainVerdict (failureReason outcome jsonErr) := by
    cases outcome with
    | timeout => rfl
    | error e => rfl
    | ok raw =>
      have hfr : failureReason (.ok raw) jsonErr =
          (match (findBlocks (stripChars raw.data)).head? with
           | none => "Could not parse verifier response"
           | some _ => "Verifier error: " ++ jsonErr) := rfl
      have hvv : verifierVerify (.ok raw) jsonErr =
          (match (findBlocks (stripChars raw.data)).head? with
           | some b =>
             match jsonLoads b with
             | some v => v
             | none => uncertainVerdict ("Verifier error: " ++ jsonErr)
           | none => uncertainVerdict "Could not parse verifier response") := rfl
      have hcf : verifierCallFails (.ok raw) =
          (match (findBlocks (stripChars raw.data)).head? with
           | none => true
           | some b => (jsonLoads b).isNone) := rfl
      rw [hcf] at h
      rw [hvv, hfr]
      cases hh : (findBlocks (stripChars raw.data)).head? with
      | none => rfl
      | some b =>
        rw [hh] at h
        have h' : (jsonLoads b).isNone = true := h
        cases hj : jsonLoads b with
        | some v => rw [hj] at h'; simp at h'
        | none =>
          show (match jsonLoads b with
            | some v => v
            | none => uncertainVerdict ("Verifier error: " ++ jsonErr)) =
            uncertainVerdict ("Verifier error: " ++ jsonErr)
          rw [hj]
  rw [heq]
  exact ⟨rfl, rfl, rfl, rfl, rfl⟩

/-- C8 witness: a verifier response carrying no JSON at all is absorbed
into the uncertain verdict with the parse-failure reason. -/
theorem C8_witness :
    verifierCallFails (.ok "no json here") = true ∧
    verifierVerify (.ok "no json here") "err" =
      uncertainVerdict "Could not parse verifier response" ∧
    jsonGetD (verifierVerify (.ok "no json here") "err") "verdict" .null =
      .str "uncertain" ∧
    jsonGetD (verifierVerify (.ok "no json here") "err") "confidence" .null = .num 0 0 := by
  have h := C8_verifier_failure_absorbed (.ok "no json here") "err" rfl
  exact ⟨rfl, h.1.trans rfl, h.2.1, h.2.2.1⟩

/-- C9: the claim says the memory read accessors return a value without
raising in every session state, including after steps whose
verification field is absent or null, and never mutate state.
Non-mutation holds (both readers are pure functions of the step
history), and the absent-key state is read safely — but a history whose
last record carries a *null* verification (exactly what
`AdvancedReactAgent.run` stores whenever no verification ran that
iteration) makes `get_summary` raise `AttributeError` at
`self.history[-1].get("verification", \x7b\x7d).get("verdict")`:
evaluating the embedded reader at that state yields the error, not a
value. -/
theorem C9_get_summary_raises_on_null_verification :
    getSummary [nullVerificationRecord] =
      .error "AttributeError: the stored verification value has no attribute get" ∧
    getSummary [missingVerificationRecord] =
      .ok (.obj [("total_steps", .num 1 0),
                 ("actions_taken", .arr [.str "search"]),
                 ("last_verdict", .null)]) ∧
    getContextSummary [nullVerificationRecord] 3 = .ok "Step 1: t... (action: none)" ∧
    getContextSummary [missingVerificationRecord] 3 = .ok "Step 1: t... (action: search)" :=
  ⟨rfl, rfl, rfl, rfl⟩

/-- C10: in `AdvancedReactAgent.run` every step of the returned result
is exactly a value produced by the response parser for some prompt —
appended before tool dispatch and never updated — so its observation
field keeps the parser-supplied value, which is empty (or absent,
making the loop's defaulted lookup empty) even when a tool ran that
iteration; unlike `BaseReActAgent.run`, which writes the actual tool
observation back into the stored step, as the concrete base run with a
succeeding tool shows. -/
theorem C10_advanced_steps_keep_parser_observation
    (respond : String → String) (tools : List Tool)
    (verifier : Option (String → JsonValue → String → JsonValue))
    (useVerifier : Bool) (query p0 : String) (maxIter : Nat) :
    (∀ s ∈ (advRun (fun p => parseLLMOutput (respond p)) tools verifier useVerifier
        query p0 maxIter).steps,
      (∃ p, s = parseLLMOutput (respond p)) ∧
      jsonGetD s "observation" (.str "") = .str "") ∧
    (baseRun (fun _ => searchStep) [resultTool] "q" "P" 1).steps =
      [setField searchStep "observation" (.str "RESULT")] ∧
    jsonGetD (setField searchStep "observation" (.str "RESULT")) "observation" (.str "") =
      .str "RESULT" := by
  refine ⟨?_, rfl, rfl⟩
  intro s hs
  rcases advRunLoop_steps_mem (fun p => parseLLMOutput (respond p)) tools verifier
    useVerifier query maxIter maxIter p0 [] (.str "") none s hs with h | h
  · exact absurd h (List.not_mem_nil s)
  · obtain ⟨p, hp⟩ := h
    refine ⟨⟨p, hp⟩, ?_⟩
    rw [hp]
    exact jsonGetD_parseLLMOutput_observation (respond p)

/-- C10 witness: in a concrete advanced run the stored step's
observation is the parser-supplied empty value. -/
theorem C10_witness :
    jsonGetD (parseLLMOutput "nonsense") "observation" (.str "") = .str "" := by
  have h := (C10_advanced_steps_keep_parser_observation (fun _ => "nonsense") [] none
    false "q" "P" 1).1
  have hsteps : (advRun (fun p => parseLLMOutput ((fun _ : String => "nonsense") p)) []
      none false "q" "P" 1).steps = [parseLLMOutput "nonsense"] := rfl
  have hm : parseLLMOutput "nonsense" ∈ (advRun
      (fun p => parseLLMOutput ((fun _ : String => "nonsense") p)) [] none false
      "q" "P" 1).steps := by
    rw [hsteps]
    exact List.mem_singleton_self _
  exact (h (parseLLMOutput "nonsense") hm).2

end LocalRag
